import Mathlib

/-!
Verification of the botfront server-side data-access fragment:
slot CRUD methods (`imports/api/slots/slots.methods.js`), template
methods on project documents (the second source file of the fragment),
and the user role schema (`imports/api/user/user.schema.js`).

The MongoDB-backed Meteor methods are shallowly embedded as pure
functions over explicit collection state. External collaborators
(`checkIfCan`, the per-type slot schemas of `slots.schema.js`, the
`formatNewlines` text transform, JSON/YAML serialization) are passed in
as parameters or modelled from the spec where noted, since their code is
outside this fragment.
-/

set_option autoImplicit false

namespace Botfront

/-- An error surfaced by a method call.
`meteor code reason` embeds `new Meteor.Error(code, reason)` (numeric
codes are rendered as their decimal strings); `driver code` is a raw
store/driver exception (with its numeric `e.code`) escaping uncaught;
`jsTypeError` is a JavaScript `TypeError` from accessing a property of
`undefined`; `unauthorized` is the failure raised by the external
`checkIfCan` collaborator. Only `meteor` errors carry a structured
code and message produced by this code. -/
inductive MErr where
  | meteor (code : String) (reason : String)
  | driver (code : Nat)
  | jsTypeError
  | unauthorized
  deriving DecidableEq, Repr

/-- Outcome of a method call: a returned value or a thrown error. -/
inductive MRes (α : Type) where
  | ok (a : α)
  | threw (e : MErr)
  deriving DecidableEq, Repr

/-- A slot document: an ordered field map (JavaScript object), field
names to values. Field values are modelled as strings; only equality
of values matters to this fragment. Keys of a JavaScript object are
unique (hypotheses state this where needed). -/
abbrev SlotDoc := List (String × String)

/-- Value of field `k` in document `d` (first occurrence), `none` when
the field is absent (JavaScript `undefined`). -/
def getField : SlotDoc → String → Option String
  | [], _ => none
  | (k', v) :: rest, k => if k' == k then some v else getField rest k

/-- MongoDB `$set` of a single field: overwrite in place when present,
append when absent. -/
def setField : SlotDoc → String → String → SlotDoc
  | [], k, v => [(k, v)]
  | (k', v') :: rest, k, v =>
      if k' == k then (k, v) :: rest else (k', v') :: setField rest k v

/-- MongoDB `$set` with update document `upd`: each field of `upd` is
set on `d`; fields of `d` not mentioned in `upd` are left intact. -/
def mongoSet (d : SlotDoc) (upd : SlotDoc) : SlotDoc :=
  upd.foldl (fun acc p => setField acc p.1 p.2) d

/-- MongoDB document-selector match: every field of the selector is
present in the document with an equal value (as used by
`Slots.remove(slot)`, whose selector is the whole slot object). -/
def docMatches (sel : SlotDoc) (d : SlotDoc) : Bool :=
  sel.all (fun p => getField d p.1 == some p.2)

/-- Replace the first element satisfying `q` by its image under `f`;
the rest of the list is untouched. This is MongoDB
`update(selector, modifier)` semantics (one document, the first match)
and also the array positional operator `$`. -/
def updateFirstMatch {α : Type} : List α → (α → Bool) → (α → α) → List α
  | [], _, _ => []
  | a :: rest, q, f => if q a then f a :: rest else a :: updateFirstMatch rest q f

/-- A store access attempted by a slot method (the trace records which
`Slots.*` calls were made). -/
inductive StoreOp where
  | insertOp (doc : SlotDoc)
  | updateOp (selId : Option String) (upd : SlotDoc)
  | removeOp (sel : SlotDoc)
  deriving DecidableEq, Repr

/-- `validateSchema(slot)` from `slots.methods.js`: if `slot.type` is
truthy, the external per-type schema validator runs (modelled by the
`schemaCheck` parameter, which covers both a thrown validation error
and the `TypeError` on an unknown type); otherwise
`new Meteor.Error('400')` is thrown. Returns the thrown error, if any. -/
def validateSchema (schemaCheck : SlotDoc → Option MErr) (slot : SlotDoc) : Option MErr :=
  match getField slot "type" with
  | some t => if t == "" then some (.meteor "400" "") else schemaCheck slot
  | none => some (.meteor "400" "")

/-- `handleError(e)` from `slots.methods.js`: duplicate-key code 11000
becomes `Meteor.Error(400, 'Slot already exists')`, anything else
becomes `Meteor.Error(500, 'Server Error')`. -/
def handleError (code : Nat) : MErr :=
  if code == 11000 then .meteor "400" "Slot already exists"
  else .meteor "500" "Server Error"

/-- `'slots.insert'(slot, projectId)`. `can` is the outcome of the
external `checkIfCan('stories:w', projectId)`; `storeFail = some c`
means the `Slots.insert` store call throws a driver error with code
`c`, `none` means it succeeds (appending the document). Returns the
call outcome, the resulting collection, and the store-access trace.
The `check(slot, Object)` / `check(projectId, String)` argument checks
are discharged by the types of the embedding. -/
def slotsInsert (can : Bool) (schemaCheck : SlotDoc → Option MErr)
    (coll : List SlotDoc) (storeFail : Option Nat) (slot : SlotDoc)
    (projectId : String) : MRes Unit × List SlotDoc × List StoreOp :=
  let _ := projectId
  if !can then (.threw .unauthorized, coll, [])
  else match validateSchema schemaCheck slot with
    | some e => (.threw e, coll, [])
    | none =>
        match storeFail with
        | some c => (.threw (handleError c), coll, [.insertOp slot])
        | none => (.ok (), coll ++ [slot], [.insertOp slot])

/-- `'slots.update'(slot, projectId)`: after the same checks as insert,
`Slots.update({ _id: slot._id }, { $set: slot })` — `$set` on the first
document whose `_id` equals `slot._id`. A store failure goes through
`handleError`. -/
def slotsUpdate (can : Bool) (schemaCheck : SlotDoc → Option MErr)
    (coll : List SlotDoc) (storeFail : Option Nat) (slot : SlotDoc)
    (projectId : String) : MRes Unit × List SlotDoc × List StoreOp :=
  let _ := projectId
  if !can then (.threw .unauthorized, coll, [])
  else match validateSchema schemaCheck slot with
    | some e => (.threw e, coll, [])
    | none =>
        match storeFail with
        | some c => (.threw (handleError c), coll,
            [.updateOp (getField slot "_id") slot])
        | none => (.ok (),
            updateFirstMatch coll
              (fun d => getField d "_id" == getField slot "_id")
              (fun d => mongoSet d slot),
            [.updateOp (getField slot "_id") slot])

/-- `'slots.delete'(slot, projectId)`: same checks, then
`Slots.remove(slot)` with NO try/catch — a store failure propagates as
the raw driver error, not through `handleError`. On success all
documents matching the slot selector are removed. -/
def slotsDelete (can : Bool) (schemaCheck : SlotDoc → Option MErr)
    (coll : List SlotDoc) (storeFail : Option Nat) (slot : SlotDoc)
    (projectId : String) : MRes Unit × List SlotDoc × List StoreOp :=
  let _ := projectId
  if !can then (.threw .unauthorized, coll, [])
  else match validateSchema schemaCheck slot with
    | some e => (.threw e, coll, [])
    | none =>
        match storeFail with
        | some c => (.threw (.driver c), coll, [.removeOp slot])
        | none => (.ok (), coll.filter (fun d => !(docMatches slot d)),
            [.removeOp slot])

/-- A rendering fragment of a localized template value
(an element of `values[i].sequence`). -/
structure SeqItem where
  content : String
  deriving DecidableEq, Repr

/-- A localized value of a template: `{ lang, sequence[] }`. -/
structure TemplateValue where
  lang : String
  sequence : List SeqItem
  deriving DecidableEq, Repr

/-- A bot response template nested in a project document:
`{ key, values[] }`, plus the optional `match.nlu.intent` trigger field
(flattened here to `nluIntent`), which `templates.countWithIntent`
queries. -/
structure Template where
  key : String
  values : List TemplateValue
  nluIntent : Option String := none
  deriving DecidableEq, Repr

/-- A project document, restricted to the fields this fragment touches
(`id` embeds the Mongo `_id` field). -/
structure Project where
  id : String
  templates : List Template
  responsesUpdatedAt : Nat
  deriving DecidableEq, Repr

/-- The Projects collection. -/
abbrev DB := List Project

/-- `Projects.findOne({ _id: projectId })` (undefined becomes `none`). -/
def findOneProject (db : DB) (projectId : String) : Option Project :=
  db.find? (fun p => p.id == projectId)

/-- Modelled from the spec: `safeDump({ text: key })` of the external
js-yaml library, the "YAML-dumped text form of the key" used as default
template content. -/
def safeDumpText (key : String) : String :=
  "text: " ++ key ++ "\n"

/-- The default localized value `newSeq` built by
`'project.findTemplate'`: one sequence item whose content is the
YAML-dumped text form of the key. -/
def newSeq (key lang : String) : TemplateValue :=
  { lang := lang, sequence := [{ content := safeDumpText key }] }

/-- `'project.findTemplate'(projectId, key, lang)`. `can` is the outcome
of `checkIfCan('responses:r', projectId)`. The `findOne` uses selector
`{ _id: projectId, templates: { $elemMatch: { key } } }` with an
`$elemMatch` projection, so the in-memory `template.templates[0]` is
the first template of the project whose key matches. Three paths:
no project/template match — synthesize a template and `$push` it;
template found but no value for `lang` — `$push` a default value onto
`templates.$.values`; otherwise no mutation. Mutating paths `$set`
`responsesUpdatedAt`. -/
def findTemplate (can : Bool) (db : DB) (now : Nat)
    (projectId key lang : String) : MRes Template × DB :=
  if !can then (.threw .unauthorized, db)
  else
    match db.find? (fun p => p.id == projectId && p.templates.any (fun t => t.key == key)) with
    | none =>
        let tNew : Template := { key := key, values := [newSeq key lang] }
        (.ok tNew,
          updateFirstMatch db (fun p => p.id == projectId)
            (fun p => { p with templates := p.templates ++ [tNew],
                               responsesUpdatedAt := now }))
    | some proj =>
        match proj.templates.find? (fun t => t.key == key) with
        | none => (.threw .jsTypeError, db)
        | some t =>
            if t.values.any (fun v => v.lang == lang) then (.ok t, db)
            else
              (.ok { t with values := t.values ++ [newSeq key lang] },
                updateFirstMatch db
                  (fun p => p.id == projectId && p.templates.any (fun u => u.key == key))
                  (fun p => { p with
                    templates := updateFirstMatch p.templates
                      (fun u => u.key == key)
                      (fun u => { u with values := u.values ++ [newSeq key lang] }),
                    responsesUpdatedAt := now }))

/-- `'project.insertTemplate'(projectId, item)`: destructures
`{ templates }` from `findOne({ _id: projectId })` (a `TypeError` when
the project is missing), throws `template-collision` when a template
with `item.key` exists, otherwise `$push`es `item` and `$set`s
`responsesUpdatedAt`. -/
def insertTemplate (can : Bool) (db : DB) (now : Nat)
    (projectId : String) (item : Template) : MRes Unit × DB :=
  if !can then (.threw .unauthorized, db)
  else
    match findOneProject db projectId with
    | none => (.threw .jsTypeError, db)
    | some p =>
        if p.templates.any (fun t => t.key == item.key) then
          (.threw (.meteor "template-collision"
            ("Can not add template because one already exists with the key " ++ item.key)), db)
        else
          (.ok (),
            updateFirstMatch db (fun q => q.id == projectId)
              (fun q => { q with templates := q.templates ++ [item],
                                 responsesUpdatedAt := now }))

/-- The `templates` payload of `'templates.import'`: either a structured
list or a serialized string. JSON serialization is external to this
fragment, so the string case carries the list `JSON.parse` yields on
it. -/
inductive TemplatesArg where
  | listArg (ts : List Template)
  | strArg (parsed : List Template)

/-- The `typeof templates === 'string' ? JSON.parse(templates) :
templates` dispatch of `'templates.import'`. -/
def decodeTemplatesArg : TemplatesArg → List Template
  | .listArg ts => ts
  | .strArg parsed => parsed

/-- `'templates.import'(projectId, templates)`: destructures
`{ templates: oldTemplates }` from `findOne` (a `TypeError` when the
project is missing); computes `pullTemplatesKey` as the keys of old
templates whose key occurs among the new ones (lodash `intersectionBy`
by `'key'`; its deduplication is dropped here since the keys only feed
a `$in` membership test); `$pull`s those, then `$push`es all new
templates and `$set`s `responsesUpdatedAt`. -/
def importTemplates (can : Bool) (db : DB) (now : Nat)
    (projectId : String) (arg : TemplatesArg) : MRes Unit × DB :=
  if !can then (.threw .unauthorized, db)
  else
    let newTemplates := decodeTemplatesArg arg
    match findOneProject db projectId with
    | none => (.threw .jsTypeError, db)
    | some p =>
        let _ := p
        let pullTemplatesKey :=
          (p.templates.filter (fun t => newTemplates.any (fun n => n.key == t.key))).map
            (fun t => t.key)
        let db1 := updateFirstMatch db (fun q => q.id == projectId)
          (fun q => { q with
            templates := q.templates.filter (fun t => !(pullTemplatesKey.contains t.key)) })
        let db2 := updateFirstMatch db1 (fun q => q.id == projectId)
          (fun q => { q with templates := q.templates ++ newTemplates,
                             responsesUpdatedAt := now })
        (.ok (), db2)

/-- `formattedItem.values[0].sequence = formatNewlines(item.values[0].sequence)`
in `'project.updateTemplate'`: applies the external `formatNewlines`
transform (parameter `fmt`) to the first localized value's sequence; a
`TypeError` (`none`) when `values` is empty. -/
def formatItem (fmt : List SeqItem → List SeqItem) (item : Template) : Option Template :=
  match item.values with
  | [] => none
  | v :: rest => some { item with values := { v with sequence := fmt v.sequence } :: rest }

/-- `'project.updateTemplate'(projectId, key, item)`: formats the item,
then `update({ _id, 'templates.key': key }, { $set: { 'templates.$':
formattedItem, responsesUpdatedAt: Date.now() } })` — replaces the
first key-matching template and bumps the timestamp. -/
def updateTemplate (can : Bool) (fmt : List SeqItem → List SeqItem)
    (db : DB) (now : Nat) (projectId key : String)
    (item : Template) : MRes Unit × DB :=
  if !can then (.threw .unauthorized, db)
  else
    match formatItem fmt item with
    | none => (.threw .jsTypeError, db)
    | some fi =>
        (.ok (),
          updateFirstMatch db
            (fun p => p.id == projectId && p.templates.any (fun t => t.key == key))
            (fun p => { p with
              templates := updateFirstMatch p.templates (fun t => t.key == key) (fun _ => fi),
              responsesUpdatedAt := now }))

/-- `'project.deleteTemplate'(projectId, key, lang)`:
`update({ _id, 'templates.key': key }, { $pull: { templates: { key } },
$set: { responsesUpdatedAt: Date.now() } })`. `$pull` removes every
key-matching array element. `lang` is only type-checked. -/
def deleteTemplate (can : Bool) (db : DB) (now : Nat)
    (projectId key lang : String) : MRes Unit × DB :=
  let _ := lang
  if !can then (.threw .unauthorized, db)
  else
    (.ok (),
      updateFirstMatch db
        (fun p => p.id == projectId && p.templates.any (fun t => t.key == key))
        (fun p => { p with templates := p.templates.filter (fun t => !(t.key == key)),
                           responsesUpdatedAt := now }))

/-- The `arg` of `'templates.removeByKey'`: a single key or a key list. -/
inductive KeyArg where
  | one (k : String)
  | many (ks : List String)

/-- The `typeof arg === 'string' ? [arg] : arg` dispatch of
`'templates.removeByKey'`. -/
def decodeKeyArg : KeyArg → List String
  | .one k => [k]
  | .many ks => ks

/-- `'templates.removeByKey'(projectId, arg)`: `$pull`s every template
whose key is in the list and `$set`s `responsesUpdatedAt`, selecting by
`_id` only. -/
def removeByKey (can : Bool) (db : DB) (now : Nat)
    (projectId : String) (arg : KeyArg) : MRes Unit × DB :=
  if !can then (.threw .unauthorized, db)
  else
    let templateKeys := decodeKeyArg arg
    (.ok (),
      updateFirstMatch db (fun p => p.id == projectId)
        (fun p => { p with templates := p.templates.filter (fun t => !(templateKeys.contains t.key)),
                           responsesUpdatedAt := now }))

/-- `'templates.countWithIntent'(projectId, intent)`: fetches the
project with an `$elemMatch` projection on `'match.nlu.intent'` and
returns `!!project[0].templates` — a `TypeError` when the project is
missing (`project[0]` is `undefined`), otherwise whether some template
triggers on the intent (the projected `templates` field is absent when
no element matches). -/
def countWithIntent (can : Bool) (db : DB)
    (projectId intent : String) : MRes Bool :=
  if !can then (.threw .unauthorized)
  else
    match findOneProject db projectId with
    | none => .threw .jsTypeError
    | some p => .ok (p.templates.any (fun t => t.nluIntent == some intent))

/-- One remote template-mutating call, with its arguments (used to state
the `responsesUpdatedAt` invariant uniformly over the operations). -/
inductive TemplateOp where
  | updT (projectId key : String) (item : Template) (fmt : List SeqItem → List SeqItem)
  | delT (projectId key lang : String)
  | findT (projectId key lang : String)
  | insT (projectId : String) (item : Template)
  | impT (projectId : String) (arg : TemplatesArg)
  | rmK (projectId : String) (arg : KeyArg)

/-- The post-state of the Projects collection after one template
operation. -/
def applyOp (can : Bool) (db : DB) (now : Nat) : TemplateOp → DB
  | .updT projectId key item fmt => (updateTemplate can fmt db now projectId key item).2
  | .delT projectId key lang => (deleteTemplate can db now projectId key lang).2
  | .findT projectId key lang => (findTemplate can db now projectId key lang).2
  | .insT projectId item => (insertTemplate can db now projectId item).2
  | .impT projectId arg => (importTemplates can db now projectId arg).2
  | .rmK projectId arg => (removeByKey can db now projectId arg).2

/-- A JavaScript word character, `\w` = `[A-Za-z0-9_]` (the character
class of the `/\w+:\w+/` test in `user.schema.js`). -/
def isWordChar (c : Char) : Bool :=
  c.isAlphanum || c == '_'

/-- Whether a character list contains the pattern `\w+:\w+` — i.e. a
word character, a colon, a word character, consecutively (the regex is
unanchored and `\w+` is one-or-more, so this triple characterizes a
match). -/
def hasScopeAction : List Char → Bool
  | a :: b :: c :: rest =>
      (isWordChar a && b == ':' && isWordChar c) || hasScopeAction (b :: c :: rest)
  | _ => false

/-- `name.match(/\w+:\w+/)` truthiness on a string. -/
def containsScopeAction (s : String) : Bool :=
  hasScopeAction s.toList

/-- `UserRoleSchema`'s `allowedValues` for each `roles.$` entry: the
currently defined role ids (`Meteor.roles`), keeping only names with no
`scope:action`-shaped substring. -/
def roleAllowedValues (roleIds : List String) : List String :=
  roleIds.filter (fun name => !(containsScopeAction name))

/-- `UserRoleSchema`'s `allowedValues` for the `project` field: the
current project ids plus the sentinel `'GLOBAL'`. -/
def projectAllowedValues (projectIds : List String) : List String :=
  projectIds ++ ["GLOBAL"]

/-- The `scope:action`-shaped-substring property, stated independently
of the scanner: some decomposition exhibits a word character, a colon
and a word character consecutively. -/
def ScopeActionSubstring (s : String) : Prop :=
  ∃ l1 a c l2, s.toList = l1 ++ a :: ':' :: c :: l2
    ∧ isWordChar a = true ∧ isWordChar c = true

/- Concrete sample data used by witnesses and counterexamples. -/

/-- Sample slot document with a field (`extra`) beyond the schema
fields. -/
def exOld : SlotDoc := [("_id", "s1"), ("type", "text"), ("extra", "keep")]

/-- Sample update payload: same `_id` and `type`, no `extra` field. -/
def exSlot : SlotDoc := [("_id", "s1"), ("type", "text")]

/-- A schema check that accepts every slot (stands for a per-type
schema whose validation passes). -/
def acceptAll : SlotDoc → Option MErr := fun _ => none

/-- Sample localized value in English. -/
def exValEn : TemplateValue := { lang := "en", sequence := [{ content := "hi" }] }

/-- Sample template with a single English value. -/
def exTemplate : Template := { key := "utter_greet", values := [exValEn] }

/-- Sample project holding `exTemplate`. -/
def exProject : Project := { id := "p1", templates := [exTemplate], responsesUpdatedAt := 0 }

/-- Sample incoming template sharing `exTemplate`'s key. -/
def exTemplate2 : Template := { key := "utter_greet", values := [{ lang := "fr", sequence := [] }] }

/-- Sample template with a fresh key. -/
def exTemplate3 : Template := { key := "utter_bye", values := [exValEn] }

/-! General lemmas about the store-update combinators. -/

theorem updateFirstMatch_of_none {α : Type} (l : List α) (q : α → Bool) (f : α → α)
    (h : l.find? q = none) : updateFirstMatch l q f = l := by
  induction l with
  | nil => rfl
  | cons a rest ih =>
      rw [List.find?_cons] at h
      cases hq : q a with
      | false =>
          simp only [hq] at h
          simp [updateFirstMatch, hq, ih h]
      | true => simp [hq] at h

theorem find?_updateFirstMatch_self {α : Type} (l : List α) (q : α → Bool) (f : α → α)
    (a : α) (h : l.find? q = some a) (hf : q (f a) = true) :
    (updateFirstMatch l q f).find? q = some (f a) := by
  induction l with
  | nil => simp at h
  | cons x rest ih =>
      rw [List.find?_cons] at h
      cases hq : q x with
      | true =>
          simp only [hq] at h
          cases h
          simp [updateFirstMatch, hq, List.find?_cons, hf]
      | false =>
          simp only [hq] at h
          simp [updateFirstMatch, hq, List.find?_cons, ih h]

theorem find?_updateFirstMatch_other {α : Type} (l : List α) (Q q : α → Bool) (f : α → α)
    (a : α) (hQ : l.find? Q = none) (hq : l.find? q = some a) (hf : Q (f a) = true) :
    (updateFirstMatch l q f).find? Q = some (f a) := by
  induction l with
  | nil => simp at hq
  | cons x rest ih =>
      rw [List.find?_cons] at hQ hq
      cases hQx : Q x with
      | true => simp [hQx] at hQ
      | false =>
          simp only [hQx] at hQ
          cases hqx : q x with
          | true =>
              simp only [hqx] at hq
              cases hq
              simp [updateFirstMatch, hqx, List.find?_cons, hf]
          | false =>
              simp only [hqx] at hq
              simp [updateFirstMatch, hqx, List.find?_cons, hQx, ih hQ hq]

theorem find?_decomp {α : Type} (l : List α) (q : α → Bool) (a : α)
    (h : l.find? q = some a) :
    ∃ l1 l2, l = l1 ++ a :: l2 ∧ (∀ x ∈ l1, q x = false) ∧ q a = true ∧
      ∀ f : α → α, updateFirstMatch l q f = l1 ++ f a :: l2 := by
  induction l with
  | nil => simp at h
  | cons x rest ih =>
      rw [List.find?_cons] at h
      cases hq : q x with
      | true =>
          simp only [hq] at h
          cases h
          exact ⟨[], rest, rfl, by simp, hq, fun f => by simp [updateFirstMatch, hq]⟩
      | false =>
          simp only [hq] at h
          obtain ⟨l1, l2, hl, h1, ha, hu⟩ := ih h
          refine ⟨x :: l1, l2, by simp [hl], ?_, ha, fun f => ?_⟩
          · intro y hy
            rcases List.mem_cons.mp hy with rfl | hy
            · exact hq
            · exact h1 y hy
          · simp [updateFirstMatch, hq, hu f]

theorem get?_updateFirstMatch {α : Type} (l : List α) (q : α → Bool) (f : α → α)
    (i : Nat) :
    (updateFirstMatch l q f).get? i = l.get? i ∨
      ∃ a, l.get? i = some a ∧ q a = true ∧
        (updateFirstMatch l q f).get? i = some (f a) := by
  induction l generalizing i with
  | nil => left; rfl
  | cons x rest ih =>
      cases hq : q x with
      | true =>
          cases i with
          | zero => exact Or.inr ⟨x, rfl, hq, by simp [updateFirstMatch, hq]⟩
          | succ j => left; simp [updateFirstMatch, hq]
      | false =>
          cases i with
          | zero => left; simp [updateFirstMatch, hq]
          | succ j =>
              rcases ih j with h | ⟨a, h1, h2, h3⟩
              · left; simpa [updateFirstMatch, hq] using h
              · exact Or.inr ⟨a, by simpa using h1, h2, by simpa [updateFirstMatch, hq] using h3⟩

theorem updateFirstMatch_comp {α : Type} (l : List α) (q : α → Bool) (f g : α → α)
    (hf : ∀ a, q (f a) = q a) :
    updateFirstMatch (updateFirstMatch l q f) q g
      = updateFirstMatch l q (fun a => g (f a)) := by
  induction l with
  | nil => rfl
  | cons x rest ih =>
      cases hq : q x with
      | true => simp [updateFirstMatch, hq, hf x]
      | false => simp [updateFirstMatch, hq, ih]

theorem find?_append_sections {α : Type} (l1 : List α) (x : α) (l2 : List α)
    (q : α → Bool) (h1 : ∀ y ∈ l1, q y = false) (hx : q x = true) :
    (l1 ++ x :: l2).find? q = some x := by
  rw [List.find?_append, List.find?_eq_none.mpr (by simpa using h1)]
  simp [List.find?_cons, hx]

/-! Field-level lemmas for the `$set` modifier. -/

theorem getField_setField_self (d : SlotDoc) (k v : String) :
    getField (setField d k v) k = some v := by
  induction d with
  | nil => simp [setField, getField]
  | cons p rest ih =>
      obtain ⟨k0, v0⟩ := p
      cases hk : (k0 == k) with
      | true => simp [setField, hk, getField]
      | false => simp [setField, hk, getField, ih]

theorem getField_setField_ne (d : SlotDoc) (k k' v : String)
    (h : (k' == k) = false) : getField (setField d k' v) k = getField d k := by
  induction d with
  | nil => simp [setField, getField, h]
  | cons p rest ih =>
      obtain ⟨k0, v0⟩ := p
      cases hk : (k0 == k') with
      | true =>
          have hk0 : (k0 == k) = false := by
            have : k0 = k' := by simpa using hk
            simpa [this] using h
          simp [setField, hk, getField, h, hk0]
      | false => simp [setField, hk, getField, ih]

theorem getField_mongoSet_absent (d : SlotDoc) (upd : SlotDoc) (k : String)
    (h : ∀ p ∈ upd, (p.1 == k) = false) :
    getField (mongoSet d upd) k = getField d k := by
  induction upd generalizing d with
  | nil => rfl
  | cons p rest ih =>
      obtain ⟨k1, v1⟩ := p
      have hstep : mongoSet d ((k1, v1) :: rest) = mongoSet (setField d k1 v1) rest := rfl
      rw [hstep, ih (setField d k1 v1) (fun p hp => h p (List.mem_cons_of_mem _ hp)),
        getField_setField_ne d k k1 v1 (h (k1, v1) (List.mem_cons_self _ _))]

theorem getField_mongoSet_present (d : SlotDoc) (upd : SlotDoc) (k v : String)
    (hn : (upd.map Prod.fst).Nodup) (h : getField upd k = some v) :
    getField (mongoSet d upd) k = some v := by
  induction upd generalizing d with
  | nil => simp [getField] at h
  | cons p rest ih =>
      obtain ⟨k1, v1⟩ := p
      have hstep : mongoSet d ((k1, v1) :: rest) = mongoSet (setField d k1 v1) rest := rfl
      rw [List.map_cons, List.nodup_cons] at hn
      cases hk : (k1 == k) with
      | true =>
          have hk1 : k1 = k := by simpa using hk
          have hv : v = v1 := by
            rw [getField, hk] at h
            exact (Option.some.inj h).symm
          have habs : ∀ p ∈ rest, (p.1 == k) = false := by
            intro p hp
            have hne : p.1 ≠ k1 := fun hc => hn.1 (hc ▸ List.mem_map.mpr ⟨p, hp, rfl⟩)
            exact beq_false_of_ne (by rw [← hk1]; exact hne)
          rw [hstep, getField_mongoSet_absent _ _ _ habs, hk1,
            getField_setField_self, hv]
      | false =>
          simp only [getField, hk, if_false] at h
          rw [hstep]
          exact ih (setField d k1 v1) hn.2 h

theorem getField_eq_none (d : SlotDoc) (k : String) (h : getField d k = none) :
    ∀ p ∈ d, (p.1 == k) = false := by
  induction d with
  | nil => simp
  | cons p rest ih =>
      obtain ⟨k0, v0⟩ := p
      cases hk : (k0 == k) with
      | true => simp [getField, hk] at h
      | false =>
          simp only [getField, hk, if_false] at h
          intro q hq
          rcases List.mem_cons.mp hq with rfl | hq
          · exact hk
          · exact ih h q hq

/-! Lemmas about the `\w+:\w+` scanner. -/

theorem hasScopeAction_cons (x : Char) (l : List Char)
    (h : hasScopeAction l = true) : hasScopeAction (x :: l) = true := by
  match l with
  | [] => exact Bool.noConfusion h
  | [a] => exact Bool.noConfusion h
  | a :: b :: rest =>
      have hunf : hasScopeAction (x :: a :: b :: rest)
          = ((isWordChar x && (a == ':') && isWordChar b)
              || hasScopeAction (a :: b :: rest)) := rfl
      rw [hunf, h, Bool.or_true]

theorem hasScopeAction_exists (cs : List Char) (h : hasScopeAction cs = true) :
    ∃ l1 a c l2, cs = l1 ++ a :: ':' :: c :: l2
      ∧ isWordChar a = true ∧ isWordChar c = true := by
  induction cs with
  | nil => exact Bool.noConfusion h
  | cons x xs ih =>
      cases xs with
      | nil => exact Bool.noConfusion h
      | cons y ys =>
          cases ys with
          | nil => exact Bool.noConfusion h
          | cons z rest =>
              have hunf : hasScopeAction (x :: y :: z :: rest)
                  = ((isWordChar x && (y == ':') && isWordChar z)
                      || hasScopeAction (y :: z :: rest)) := rfl
              rw [hunf] at h
              rcases Bool.or_eq_true_iff.mp h with h1 | h2
              · simp only [Bool.and_eq_true] at h1
                obtain ⟨⟨hx, hy⟩, hz⟩ := h1
                have hy' : y = ':' := by simpa using hy
                exact ⟨[], x, z, rest, by simp [hy'], hx, hz⟩
              · obtain ⟨l1, a, c, l2, hcs, ha, hc⟩ := ih h2
                exact ⟨x :: l1, a, c, l2, by simp [hcs], ha, hc⟩

theorem hasScopeAction_of_parts (l1 : List Char) (a c : Char) (l2 : List Char)
    (ha : isWordChar a = true) (hc : isWordChar c = true) :
    hasScopeAction (l1 ++ a :: ':' :: c :: l2) = true := by
  induction l1 with
  | nil =>
      have hunf : hasScopeAction (a :: ':' :: c :: l2)
          = ((isWordChar a && (':' == ':') && isWordChar c)
              || hasScopeAction (':' :: c :: l2)) := rfl
      rw [List.nil_append, hunf, ha, hc]
      simp
  | cons x l1' ih =>
      rw [List.cons_append]
      exact hasScopeAction_cons x _ ih

theorem containsScopeAction_iff (s : String) :
    containsScopeAction s = true ↔ ScopeActionSubstring s := by
  constructor
  · intro h
    exact hasScopeAction_exists s.toList h
  · intro ⟨l1, a, c, l2, hs, ha, hc⟩
    show hasScopeAction s.toList = true
    rw [hs]
    exact hasScopeAction_of_parts l1 a c l2 ha hc

/-! Claim theorems. -/

/-- C4: for every slot value lacking a `type` field, each of
`slots.insert`, `slots.update` and `slots.delete` throws
`Meteor.Error('400')` (ValidationFailed), leaves the collection
unchanged and attempts no store operation (empty store-access trace). -/
theorem slots_missing_type_no_store (schemaCheck : SlotDoc → Option MErr)
    (coll : List SlotDoc) (storeFail : Option Nat) (slot : SlotDoc)
    (projectId : String) (h : getField slot "type" = none) :
    slotsInsert true schemaCheck coll storeFail slot projectId
        = (.threw (.meteor "400" ""), coll, ([] : List StoreOp))
      ∧ slotsUpdate true schemaCheck coll storeFail slot projectId
        = (.threw (.meteor "400" ""), coll, ([] : List StoreOp))
      ∧ slotsDelete true schemaCheck coll storeFail slot projectId
        = (.threw (.meteor "400" ""), coll, ([] : List StoreOp)) := by
  have hv : validateSchema schemaCheck slot = some (.meteor "400" "") := by
    simp [validateSchema, h]
  exact ⟨by simp [slotsInsert, hv], by simp [slotsUpdate, hv],
    by simp [slotsDelete, hv]⟩

/-- Witness for C4 at a concrete typeless slot. -/
theorem slots_missing_type_no_store_witness :
    getField [("name", "n")] "type" = none
      ∧ slotsInsert true acceptAll [] none [("name", "n")] "p1"
        = (.threw (.meteor "400" ""), ([] : List SlotDoc), ([] : List StoreOp)) :=
  ⟨by decide,
    (slots_missing_type_no_store acceptAll [] none [("name", "n")] "p1" (by decide)).1⟩

/-- C1 counterexample: a duplicate-key store failure (driver code
11000) during `slots.delete` surfaces as the raw driver error, not as
the Conflict error `Meteor.Error(400, 'Slot already exists')`. -/
theorem slots_delete_unclassified_counterexample :
    (slotsDelete true acceptAll [exOld] (some 11000) exSlot "p1").1
        = .threw (.driver 11000)
      ∧ (slotsDelete true acceptAll [exOld] (some 11000) exSlot "p1").1
        ≠ .threw (.meteor "400" "Slot already exists") :=
  ⟨by decide, by decide⟩

/-- C1 (amended): when the underlying store call fails, `slots.insert`
and `slots.update` classify the failure — duplicate-key code 11000
becomes `Meteor.Error(400, 'Slot already exists')`, anything else
`Meteor.Error(500, 'Server Error')` — while `slots.delete`, which has
no try/catch, propagates the raw store error unclassified. -/
theorem slots_store_error_classification (schemaCheck : SlotDoc → Option MErr)
    (coll : List SlotDoc) (c : Nat) (slot : SlotDoc) (projectId : String)
    (hv : validateSchema schemaCheck slot = none) :
    ((slotsInsert true schemaCheck coll (some c) slot projectId).1
        = .threw (if c = 11000 then .meteor "400" "Slot already exists"
                  else .meteor "500" "Server Error"))
      ∧ ((slotsUpdate true schemaCheck coll (some c) slot projectId).1
        = .threw (if c = 11000 then .meteor "400" "Slot already exists"
                  else .meteor "500" "Server Error"))
      ∧ ((slotsDelete true schemaCheck coll (some c) slot projectId).1
        = .threw (.driver c)) := by
  by_cases hc : c = 11000
  · exact ⟨by simp [slotsInsert, hv, handleError, hc],
      by simp [slotsUpdate, hv, handleError, hc],
      by simp [slotsDelete, hv]⟩
  · have hcb : (c == 11000) = false := by simpa using hc
    exact ⟨by simp [slotsInsert, hv, handleError, hc, hcb],
      by simp [slotsUpdate, hv, handleError, hc, hcb],
      by simp [slotsDelete, hv]⟩

/-- Witness for the amended C1 at a concrete non-duplicate store
failure. -/
theorem slots_store_error_classification_witness :
    validateSchema acceptAll exSlot = none
      ∧ (slotsDelete true acceptAll [exOld] (some 7) exSlot "p1").1
        = .threw (.driver 7) :=
  ⟨by decide,
    (slots_store_error_classification acceptAll [exOld] 7 exSlot "p1" (by decide)).2.2⟩

/-- C2 counterexample: updating the stored slot
`[_id s1, type text, extra keep]` with the valid slot
`[_id s1, type text]` leaves the stored document unchanged — the
`extra` field, absent from the update payload, still exists afterwards,
so the full field set is NOT replaced. -/
theorem slots_update_merge_counterexample :
    (slotsUpdate true acceptAll [exOld] none exSlot "p1").2.1 = [exOld]
      ∧ getField exOld "extra" = some "keep"
      ∧ getField exSlot "extra" = none :=
  ⟨by decide, by decide, by decide⟩

/-- C2 (amended): for every valid slot `s`, `slots.update` applies a
`$set` of `s`'s fields to the first stored slot whose `_id` equals
`s._id`: every field of `s` ends up with `s`'s value, and every field
of the old document absent from `s` is left unchanged (a merge, not a
replacement of the full field set). -/
theorem slots_update_sets_fields (schemaCheck : SlotDoc → Option MErr)
    (coll : List SlotDoc) (slot old : SlotDoc) (projectId : String)
    (hv : validateSchema schemaCheck slot = none)
    (hn : (slot.map Prod.fst).Nodup)
    (hf : coll.find? (fun d => getField d "_id" == getField slot "_id") = some old) :
    ∃ l1 l2, coll = l1 ++ old :: l2
      ∧ (slotsUpdate true schemaCheck coll none slot projectId).2.1
          = l1 ++ mongoSet old slot :: l2
      ∧ (∀ k v, getField slot k = some v → getField (mongoSet old slot) k = some v)
      ∧ (∀ k, getField slot k = none → getField (mongoSet old slot) k = getField old k) := by
  obtain ⟨l1, l2, hl, h1, ha, hu⟩ := find?_decomp coll _ old hf
  refine ⟨l1, l2, hl, ?_, ?_, ?_⟩
  · simp [slotsUpdate, hv, hu]
  · intro k v hkv
    exact getField_mongoSet_present old slot k v hn hkv
  · intro k hk
    exact getField_mongoSet_absent old slot k (getField_eq_none slot k hk)

/-- Witness for the amended C2 at a concrete collection and payload. -/
theorem slots_update_sets_fields_witness :
    ∃ l1 l2, [exOld] = l1 ++ exOld :: l2
      ∧ (slotsUpdate true acceptAll [exOld] none exSlot "p1").2.1
          = l1 ++ mongoSet exOld exSlot :: l2
      ∧ (∀ k v, getField exSlot k = some v → getField (mongoSet exOld exSlot) k = some v)
      ∧ (∀ k, getField exSlot k = none → getField (mongoSet exOld exSlot) k = getField exOld k) :=
  slots_update_sets_fields acceptAll [exOld] exSlot exOld "p1"
    (by decide) (by decide) (by decide)

theorem find?_double_update {α : Type} (l : List α) (q : α → Bool) (f g : α → α)
    (a : α) (h : l.find? q = some a) (hf : q (f a) = true)
    (hg : q (g (f a)) = true) :
    (updateFirstMatch (updateFirstMatch l q f) q g).find? q = some (g (f a)) :=
  find?_updateFirstMatch_self _ q g (f a)
    (find?_updateFirstMatch_self l q f a h hf) hg

/-- C3 counterexample: on a project id that matches no project, each of
`project.insertTemplate`, `templates.import` and
`templates.countWithIntent` dereferences the absent `findOne` result
and terminates in an unclassified `TypeError` (no code, no message) —
not in a structured classified error. -/
theorem missing_project_unclassified_counterexample :
    (insertTemplate true ([] : DB) 0 "p1" exTemplate).1 = .threw .jsTypeError
      ∧ (importTemplates true ([] : DB) 0 "p1" (.listArg [exTemplate])).1
          = .threw .jsTypeError
      ∧ countWithIntent true ([] : DB) "p1" "greet" = .threw .jsTypeError :=
  ⟨by decide, by decide, by decide⟩

/-- C3 (amended): failures are surfaced as classified errors except on
a missing project, where `project.insertTemplate`, `templates.import`
and `templates.countWithIntent` all terminate in an unclassified
JavaScript `TypeError` (destructuring/indexing the `undefined`
`findOne`/`fetch` result) instead of a structured code-and-message
error. -/
theorem missing_project_type_errors (db : DB) (projectId : String)
    (item : Template) (arg : TemplatesArg) (intent : String) (now : Nat)
    (h : findOneProject db projectId = none) :
    (insertTemplate true db now projectId item).1 = .threw .jsTypeError
      ∧ (importTemplates true db now projectId arg).1 = .threw .jsTypeError
      ∧ countWithIntent true db projectId intent = .threw .jsTypeError :=
  ⟨by simp [insertTemplate, h], by simp [importTemplates, h],
    by simp [countWithIntent, h]⟩

/-- Witness for the amended C3 on the empty Projects collection. -/
theorem missing_project_type_errors_witness :
    findOneProject ([] : DB) "p9" = none
      ∧ (insertTemplate true ([] : DB) 5 "p9" exTemplate3).1 = .threw .jsTypeError
      ∧ (importTemplates true ([] : DB) 5 "p9" (.strArg [exTemplate3])).1
          = .threw .jsTypeError
      ∧ countWithIntent true ([] : DB) "p9" "bye" = .threw .jsTypeError :=
  ⟨by decide,
    (missing_project_type_errors [] "p9" exTemplate3 (.strArg [exTemplate3]) "bye" 5
      (by decide)).1,
    (missing_project_type_errors [] "p9" exTemplate3 (.strArg [exTemplate3]) "bye" 5
      (by decide)).2.1,
    (missing_project_type_errors [] "p9" exTemplate3 (.strArg [exTemplate3]) "bye" 5
      (by decide)).2.2⟩

/-- C8: for an existing project, `project.insertTemplate` throws the
`template-collision` error exactly when a template with `item.key`
already exists; on that failure the collection is unchanged, and
otherwise `item` is appended to the project's template list (with the
timestamp bumped). -/
theorem insert_template_collision_iff (db : DB) (now : Nat) (projectId : String)
    (item : Template) (p : Project) (h : findOneProject db projectId = some p) :
    ((insertTemplate true db now projectId item).1
        = .threw (.meteor "template-collision"
            ("Can not add template because one already exists with the key " ++ item.key))
      ↔ p.templates.any (fun t => t.key == item.key) = true)
      ∧ (p.templates.any (fun t => t.key == item.key) = true →
          (insertTemplate true db now projectId item).2 = db)
      ∧ (p.templates.any (fun t => t.key == item.key) = false →
          (insertTemplate true db now projectId item).2.find? (fun q => q.id == projectId)
            = some { p with templates := p.templates ++ [item],
                            responsesUpdatedAt := now }) := by
  have h' : db.find? (fun q => q.id == projectId) = some p := h
  have hp : (p.id == projectId) = true := by
    have := List.find?_some h'
    simpa using this
  refine ⟨⟨?_, ?_⟩, ?_, ?_⟩
  · intro hres
    cases hany : p.templates.any (fun t => t.key == item.key) with
    | true => rfl
    | false => simp [insertTemplate, h, hany] at hres
  · intro hany
    simp [insertTemplate, h, hany]
  · intro hany
    simp [insertTemplate, h, hany]
  · intro hany
    have hfp : ((fun q : Project =>
        { q with templates := q.templates ++ [item], responsesUpdatedAt := now }) p).id
          == projectId := by simpa using hp
    have hres := find?_updateFirstMatch_self db (fun q => q.id == projectId)
      (fun q => { q with templates := q.templates ++ [item], responsesUpdatedAt := now })
      p h' hfp
    simpa [insertTemplate, h, hany] using hres

/-- Witness for C8: colliding and fresh keys on a concrete project. -/
theorem insert_template_collision_iff_witness :
    findOneProject [exProject] "p1" = some exProject
      ∧ (exProject.templates.any (fun t => t.key == exTemplate3.key) = false →
          (insertTemplate true [exProject] 3 "p1" exTemplate3).2.find?
              (fun q => q.id == "p1")
            = some { exProject with templates := exProject.templates ++ [exTemplate3],
                                    responsesUpdatedAt := 3 }) :=
  ⟨by decide,
    (insert_template_collision_iff [exProject] 3 "p1" exTemplate3 exProject (by decide)).2.2⟩

/-- C7: for an existing project with template list `T` and an import
payload decoding to `N` (structured list, or serialized string parsing
to that list), `templates.import` leaves the stored template list equal
to `T` with every entry whose key occurs in `N` removed, followed by
all entries of `N` appended in order; entries of `T` with
non-overlapping keys are untouched. -/
theorem import_replace_semantics (db : DB) (now : Nat) (projectId : String)
    (arg : TemplatesArg) (p : Project) (h : findOneProject db projectId = some p) :
    (importTemplates true db now projectId arg).1 = .ok ()
      ∧ (importTemplates true db now projectId arg).2.find? (fun q => q.id == projectId)
        = some { p with
            templates := (p.templates.filter
                (fun t => !((decodeTemplatesArg arg).any (fun n => n.key == t.key))))
              ++ decodeTemplatesArg arg,
            responsesUpdatedAt := now } := by
  have h' : db.find? (fun q => q.id == projectId) = some p := h
  have hp : (p.id == projectId) = true := by
    have := List.find?_some h'
    simpa using this
  constructor
  · simp [importTemplates, h]
  · have hkeys : ∀ t ∈ p.templates,
        ((p.templates.filter (fun u => (decodeTemplatesArg arg).any
            (fun n => n.key == u.key))).map (fun u => u.key)).contains t.key
          = (decodeTemplatesArg arg).any (fun n => n.key == t.key) := by
      intro t ht
      cases hN : (decodeTemplatesArg arg).any (fun n => n.key == t.key) with
      | true =>
          have hm : t.key ∈ (p.templates.filter (fun u => (decodeTemplatesArg arg).any
              (fun n => n.key == u.key))).map (fun u => u.key) :=
            List.mem_map.mpr ⟨t, List.mem_filter.mpr ⟨ht, hN⟩, rfl⟩
          simpa using hm
      | false =>
          cases hc : ((p.templates.filter (fun u => (decodeTemplatesArg arg).any
              (fun n => n.key == u.key))).map (fun u => u.key)).contains t.key with
          | false => rfl
          | true =>
              exfalso
              have hm : t.key ∈ (p.templates.filter (fun u => (decodeTemplatesArg arg).any
                  (fun n => n.key == u.key))).map (fun u => u.key) := by simpa using hc
              obtain ⟨u, hu, huk⟩ := List.mem_map.mp hm
              have hu2 := (List.mem_filter.mp hu).2
              rw [huk] at hu2
              exact absurd hu2 (by simp [hN])
    have hfilter : p.templates.filter (fun t =>
          !(((p.templates.filter (fun u => (decodeTemplatesArg arg).any
              (fun n => n.key == u.key))).map (fun u => u.key)).contains t.key))
        = p.templates.filter (fun t =>
            !((decodeTemplatesArg arg).any (fun n => n.key == t.key))) :=
      List.filter_congr (fun t ht => by rw [hkeys t ht])
    have hdu := find?_double_update db (fun q : Project => q.id == projectId)
      (fun q => { q with templates := q.templates.filter (fun t =>
          !(((p.templates.filter (fun u => (decodeTemplatesArg arg).any
              (fun n => n.key == u.key))).map (fun u => u.key)).contains t.key)) })
      (fun q => { q with templates := q.templates ++ decodeTemplatesArg arg,
                         responsesUpdatedAt := now })
      p h' (by simpa using hp) (by simpa using hp)
    have hunf : (importTemplates true db now projectId arg).2
        = updateFirstMatch
            (updateFirstMatch db (fun q => q.id == projectId)
              (fun q => { q with templates := q.templates.filter (fun t =>
                !(((p.templates.filter (fun u => (decodeTemplatesArg arg).any
                    (fun n => n.key == u.key))).map (fun u => u.key)).contains t.key)) }))
            (fun q => q.id == projectId)
            (fun q => { q with templates := q.templates ++ decodeTemplatesArg arg,
                               responsesUpdatedAt := now }) := by
      simp [importTemplates, h]
    rw [hunf]
    refine hdu.trans (congrArg some ?_)
    show Project.mk p.id
        ((p.templates.filter (fun t =>
          !(((p.templates.filter (fun u => (decodeTemplatesArg arg).any
              (fun n => n.key == u.key))).map (fun u => u.key)).contains t.key)))
          ++ decodeTemplatesArg arg) now
      = Project.mk p.id
        ((p.templates.filter (fun t =>
            !((decodeTemplatesArg arg).any (fun n => n.key == t.key))))
          ++ decodeTemplatesArg arg) now
    rw [hfilter]

/-- Witness for C7: importing a payload that collides on
`utter_greet` and adds `utter_bye` onto a concrete project. -/
theorem import_replace_semantics_witness :
    findOneProject [exProject] "p1" = some exProject
      ∧ (importTemplates true [exProject] 9 "p1"
          (.listArg [exTemplate2, exTemplate3])).2.find? (fun q => q.id == "p1")
        = some { exProject with
            templates := (exProject.templates.filter
                (fun t => !((decodeTemplatesArg (.listArg [exTemplate2, exTemplate3])).any
                  (fun n => n.key == t.key))))
              ++ decodeTemplatesArg (.listArg [exTemplate2, exTemplate3]),
            responsesUpdatedAt := 9 } :=
  ⟨by decide,
    (import_replace_semantics [exProject] 9 "p1" (.listArg [exTemplate2, exTemplate3])
      exProject (by decide)).2⟩

/-- C6: calling `project.findTemplate` for a `lang` that an existing
template lacks returns the template with exactly one default localized
value appended for `lang` — content the YAML-dumped text form of the
key — leaves the existing languages' entries unchanged and
un-duplicated, and stores the same appended list on the first
key-matching template, bumping `responsesUpdatedAt`. -/
theorem find_template_new_lang (db : DB) (now : Nat) (projectId key lang : String)
    (p : Project) (t : Template)
    (hp : db.find? (fun q => q.id == projectId
        && q.templates.any (fun u => u.key == key)) = some p)
    (ht : p.templates.find? (fun u => u.key == key) = some t)
    (hl : t.values.any (fun v => v.lang == lang) = false) :
    (findTemplate true db now projectId key lang).1
        = .ok { t with values := t.values ++ [newSeq key lang] }
      ∧ ∃ l1 l2, p.templates = l1 ++ t :: l2
          ∧ (∀ u ∈ l1, (u.key == key) = false)
          ∧ (findTemplate true db now projectId key lang).2.find?
                (fun q => q.id == projectId && q.templates.any (fun u => u.key == key))
              = some { p with
                  templates := l1 ++ ({ t with values := t.values ++ [newSeq key lang] }) :: l2,
                  responsesUpdatedAt := now } := by
  have hQp : (p.id == projectId && p.templates.any (fun u => u.key == key)) = true := by
    have := List.find?_some hp
    simpa using this
  simp only [Bool.and_eq_true] at hQp
  obtain ⟨hpid, hpany⟩ := hQp
  obtain ⟨l1, l2, hl12, hall, hKt, hu⟩ :=
    find?_decomp p.templates (fun u => u.key == key) t ht
  have hgt : updateFirstMatch p.templates (fun u => u.key == key)
      (fun u => { u with values := u.values ++ [newSeq key lang] })
      = l1 ++ ({ t with values := t.values ++ [newSeq key lang] }) :: l2 := hu _
  constructor
  · simp [findTemplate, hp, ht, hl]
  · refine ⟨l1, l2, hl12, hall, ?_⟩
    have hQf : (p.id == projectId
        && (updateFirstMatch p.templates (fun u => u.key == key)
            (fun u => { u with values := u.values ++ [newSeq key lang] })).any
          (fun u => u.key == key)) = true := by
      rw [hgt]
      simp [hpid, hKt]
    have hfind := find?_updateFirstMatch_self db
      (fun q => q.id == projectId && q.templates.any (fun u => u.key == key))
      (fun q : Project => { q with
          templates := updateFirstMatch q.templates (fun u => u.key == key)
            (fun u => { u with values := u.values ++ [newSeq key lang] }),
          responsesUpdatedAt := now })
      p hp hQf
    have hunf : (findTemplate true db now projectId key lang).2
        = updateFirstMatch db
            (fun q => q.id == projectId && q.templates.any (fun u => u.key == key))
            (fun q : Project => { q with
              templates := updateFirstMatch q.templates (fun u => u.key == key)
                (fun u => { u with values := u.values ++ [newSeq key lang] }),
              responsesUpdatedAt := now }) := by
      simp [findTemplate, hp, ht, hl]
    rw [hunf]
    refine hfind.trans (congrArg some ?_)
    show Project.mk p.id
        (updateFirstMatch p.templates (fun u => u.key == key)
          (fun u => { u with values := u.values ++ [newSeq key lang] })) now
      = Project.mk p.id
        (l1 ++ ({ t with values := t.values ++ [newSeq key lang] }) :: l2) now
    rw [hgt]

/-- Witness for C6: requesting French on a template that has only an
English value. -/
theorem find_template_new_lang_witness :
    (findTemplate true [exProject] 4 "p1" "utter_greet" "fr").1
        = .ok { exTemplate with values := exTemplate.values ++ [newSeq "utter_greet" "fr"] }
      ∧ ∃ l1 l2, exProject.templates = l1 ++ exTemplate :: l2
          ∧ (∀ u ∈ l1, (u.key == "utter_greet") = false)
          ∧ (findTemplate true [exProject] 4 "p1" "utter_greet" "fr").2.find?
                (fun q => q.id == "p1" && q.templates.any (fun u => u.key == "utter_greet"))
              = some { exProject with
                  templates := l1 ++
                    ({ exTemplate with
                        values := exTemplate.values ++ [newSeq "utter_greet" "fr"] }) :: l2,
                  responsesUpdatedAt := 4 } :=
  find_template_new_lang [exProject] 4 "p1" "utter_greet" "fr" exProject exTemplate
    (by decide) (by decide) (by decide)

/-- C5: `project.findTemplate` is idempotent — an immediately repeated
call with the same `(projectId, key, lang)` (under any timestamp)
performs no mutation and returns the same template as the first call.
In particular, once the first call has ensured the key-matching
template has a `values[]` entry for `lang`, the second call leaves
`values[]` unchanged and returns the existing matched template. -/
theorem find_template_idempotent (db : DB) (n1 n2 : Nat)
    (projectId key lang : String) :
    findTemplate true (findTemplate true db n1 projectId key lang).2 n2 projectId key lang
      = findTemplate true db n1 projectId key lang := by
  cases hQ : db.find? (fun p => p.id == projectId
      && p.templates.any (fun t => t.key == key)) with
  | some proj =>
      have hQp : (proj.id == projectId
          && proj.templates.any (fun t => t.key == key)) = true := by
        have := List.find?_some hQ
        simpa using this
      simp only [Bool.and_eq_true] at hQp
      obtain ⟨hpid, hpany⟩ := hQp
      obtain ⟨t, ht⟩ : ∃ t, proj.templates.find? (fun u => u.key == key) = some t := by
        cases hfind : proj.templates.find? (fun u => u.key == key) with
        | some t => exact ⟨t, rfl⟩
        | none =>
            exfalso
            have hnone := List.find?_eq_none.mp hfind
            obtain ⟨u, hu, hku⟩ := List.any_eq_true.mp hpany
            exact absurd hku (by simpa using hnone u hu)
      cases hlang : t.values.any (fun v => v.lang == lang) with
      | true => simp [findTemplate, hQ, ht, hlang]
      | false =>
          obtain ⟨l1, l2, hl12, hall, hKt, hu⟩ :=
            find?_decomp proj.templates (fun u => u.key == key) t ht
          have hgt : updateFirstMatch proj.templates (fun u => u.key == key)
              (fun u => { u with values := u.values ++ [newSeq key lang] })
              = l1 ++ ({ t with values := t.values ++ [newSeq key lang] }) :: l2 := hu _
          have hQf : (proj.id == projectId
              && (updateFirstMatch proj.templates (fun u => u.key == key)
                  (fun u => { u with values := u.values ++ [newSeq key lang] })).any
                (fun u => u.key == key)) = true := by
            rw [hgt]
            simp [hpid, hKt]
          have hfind2 := find?_updateFirstMatch_self db
            (fun p => p.id == projectId && p.templates.any (fun t => t.key == key))
            (fun p : Project => { p with
              templates := updateFirstMatch p.templates (fun u => u.key == key)
                (fun u => { u with values := u.values ++ [newSeq key lang] }),
              responsesUpdatedAt := n1 })
            proj hQ hQf
          have hinner2 : (updateFirstMatch proj.templates (fun u => u.key == key)
              (fun u => { u with values := u.values ++ [newSeq key lang] })).find?
                (fun u => u.key == key)
              = some { t with values := t.values ++ [newSeq key lang] } := by
            rw [hgt]
            exact find?_append_sections l1 _ l2 (fun u => u.key == key) hall
              (by simpa using hKt)
          have hlang2 : (t.values ++ [newSeq key lang]).any
              (fun v => v.lang == lang) = true := by
            simp [newSeq]
          have hfirst : findTemplate true db n1 projectId key lang
              = (.ok { t with values := t.values ++ [newSeq key lang] },
                  updateFirstMatch db
                    (fun p => p.id == projectId && p.templates.any (fun t => t.key == key))
                    (fun p : Project => { p with
                      templates := updateFirstMatch p.templates (fun u => u.key == key)
                        (fun u => { u with values := u.values ++ [newSeq key lang] }),
                      responsesUpdatedAt := n1 })) := by
            simp [findTemplate, hQ, ht, hlang]
          rw [hfirst]
          simp [findTemplate, hfind2, hinner2, hlang2]
  | none =>
      have hQnone := List.find?_eq_none.mp hQ
      cases hB : db.find? (fun p => p.id == projectId) with
      | none =>
          have hfix1 : updateFirstMatch db (fun p => p.id == projectId)
              (fun p : Project => { p with
                templates := p.templates ++ [{ key := key, values := [newSeq key lang] }],
                responsesUpdatedAt := n1 }) = db :=
            updateFirstMatch_of_none db _ _ hB
          have hfix2 : updateFirstMatch db (fun p => p.id == projectId)
              (fun p : Project => { p with
                templates := p.templates ++ [{ key := key, values := [newSeq key lang] }],
                responsesUpdatedAt := n2 }) = db :=
            updateFirstMatch_of_none db _ _ hB
          have hfirst : findTemplate true db n1 projectId key lang
              = (.ok { key := key, values := [newSeq key lang] }, db) := by
            simp [findTemplate, hQ, hfix1]
          rw [hfirst]
          simp [findTemplate, hQ, hfix2]
      | some p =>
          have hBp : (p.id == projectId) = true := by
            have := List.find?_some hB
            simpa using this
          have hpmem : p ∈ db := List.mem_of_find?_eq_some hB
          have hallb : ∀ u ∈ p.templates, (u.key == key) = false := by
            intro u hu
            cases hk : (u.key == key) with
            | false => rfl
            | true =>
                exfalso
                have hany : p.templates.any (fun t => t.key == key) = true :=
                  List.any_eq_true.mpr ⟨u, hu, hk⟩
                have hQp : (p.id == projectId
                    && p.templates.any (fun t => t.key == key)) = true := by
                  rw [hBp, hany]
                  rfl
                exact absurd hQp (by simpa using hQnone p hpmem)
          have hQf : (p.id == projectId
              && (p.templates ++ [({ key := key, values := [newSeq key lang] } : Template)]).any
                (fun t => t.key == key)) = true := by
            simp [hBp]
          have hfind2 := find?_updateFirstMatch_other db
            (fun q => q.id == projectId && q.templates.any (fun t => t.key == key))
            (fun q => q.id == projectId)
            (fun q : Project => { q with
              templates := q.templates ++ [{ key := key, values := [newSeq key lang] }],
              responsesUpdatedAt := n1 })
            p hQ hB hQf
          have hpfind : p.templates.find? (fun t => t.key == key) = none :=
            List.find?_eq_none.mpr (fun u hu => by simp [hallb u hu])
          have hlang2 : (([newSeq key lang] : List TemplateValue)).any
              (fun v => v.lang == lang) = true := by
            simp [newSeq]
          have hfirst : findTemplate true db n1 projectId key lang
              = (.ok { key := key, values := [newSeq key lang] },
                  updateFirstMatch db (fun q => q.id == projectId)
                    (fun q : Project => { q with
                      templates := q.templates ++ [{ key := key, values := [newSeq key lang] }],
                      responsesUpdatedAt := n1 })) := by
            simp [findTemplate, hQ]
          rw [hfirst]
          simp [findTemplate, hfind2, hpfind, hlang2]

theorem get?_eq_of_noop {db : DB} {i : Nat} {p p' : Project}
    (hp : db.get? i = some p) (hp' : db.get? i = some p') : p' = p := by
  rw [hp] at hp'
  exact (Option.some.inj hp').symm

theorem responses_stamp_single (db : DB) (q : Project → Bool) (f : Project → Project)
    (now : Nat) (hf : ∀ x, (f x).responsesUpdatedAt = now)
    (i : Nat) (p p' : Project)
    (hp : db.get? i = some p)
    (hp' : (updateFirstMatch db q f).get? i = some p')
    (hne : p'.templates ≠ p.templates) : p'.responsesUpdatedAt = now := by
  rcases get?_updateFirstMatch db q f i with h | ⟨a, ha1, ha2, ha3⟩
  · exfalso
    rw [h, hp] at hp'
    exact hne (congrArg Project.templates (Option.some.inj hp').symm)
  · rw [ha3] at hp'
    exact Option.some.inj hp' ▸ hf a

/-- C9: every template operation that actually changes a project's
template list (`project.updateTemplate`, `project.deleteTemplate`, the
mutating paths of `project.findTemplate`, `project.insertTemplate`,
`templates.import`, `templates.removeByKey`) also sets that project's
`responsesUpdatedAt` to the call's current timestamp, in the same
call. -/
theorem mutation_bumps_responses_updated_at (can : Bool) (db : DB) (now : Nat)
    (op : TemplateOp) (i : Nat) (p p' : Project)
    (hp : db.get? i = some p)
    (hp' : (applyOp can db now op).get? i = some p')
    (hne : p'.templates ≠ p.templates) :
    p'.responsesUpdatedAt = now := by
  cases can with
  | false =>
      exfalso
      have hdb : applyOp false db now op = db := by cases op <;> rfl
      rw [hdb] at hp'
      exact hne (congrArg Project.templates (get?_eq_of_noop hp hp'))
  | true =>
      cases op with
      | updT pid key item fmt =>
          cases hfi : formatItem fmt item with
          | none =>
              exfalso
              have hdb : applyOp true db now (.updT pid key item fmt) = db := by
                simp [applyOp, updateTemplate, hfi]
              rw [hdb] at hp'
              exact hne (congrArg Project.templates (get?_eq_of_noop hp hp'))
          | some fi =>
              have hdb : applyOp true db now (.updT pid key item fmt)
                  = updateFirstMatch db
                      (fun q => q.id == pid && q.templates.any (fun t => t.key == key))
                      (fun q : Project => { q with
                        templates := updateFirstMatch q.templates (fun t => t.key == key)
                          (fun _ => fi),
                        responsesUpdatedAt := now }) := by
                simp [applyOp, updateTemplate, hfi]
              rw [hdb] at hp'
              exact responses_stamp_single db _ _ now (fun x => rfl) i p p' hp hp' hne
      | delT pid key lang =>
          have hdb : applyOp true db now (.delT pid key lang)
              = updateFirstMatch db
                  (fun q => q.id == pid && q.templates.any (fun t => t.key == key))
                  (fun q : Project => { q with
                    templates := q.templates.filter (fun t => !(t.key == key)),
                    responsesUpdatedAt := now }) := by
            simp [applyOp, deleteTemplate]
          rw [hdb] at hp'
          exact responses_stamp_single db _ _ now (fun x => rfl) i p p' hp hp' hne
      | findT pid key lang =>
          cases hQ : db.find? (fun q => q.id == pid
              && q.templates.any (fun t => t.key == key)) with
          | none =>
              have hdb : applyOp true db now (.findT pid key lang)
                  = updateFirstMatch db (fun q => q.id == pid)
                      (fun q : Project => { q with
                        templates := q.templates
                          ++ [{ key := key, values := [newSeq key lang] }],
                        responsesUpdatedAt := now }) := by
                simp [applyOp, findTemplate, hQ]
              rw [hdb] at hp'
              exact responses_stamp_single db _ _ now (fun x => rfl) i p p' hp hp' hne
          | some proj =>
              cases ht : proj.templates.find? (fun t => t.key == key) with
              | none =>
                  exfalso
                  have hdb : applyOp true db now (.findT pid key lang) = db := by
                    simp [applyOp, findTemplate, hQ, ht]
                  rw [hdb] at hp'
                  exact hne (congrArg Project.templates (get?_eq_of_noop hp hp'))
              | some t =>
                  cases hl : t.values.any (fun v => v.lang == lang) with
                  | true =>
                      exfalso
                      have hdb : applyOp true db now (.findT pid key lang) = db := by
                        simp [applyOp, findTemplate, hQ, ht, hl]
                      rw [hdb] at hp'
                      exact hne (congrArg Project.templates (get?_eq_of_noop hp hp'))
                  | false =>
                      have hdb : applyOp true db now (.findT pid key lang)
                          = updateFirstMatch db
                              (fun q => q.id == pid
                                && q.templates.any (fun t => t.key == key))
                              (fun q : Project => { q with
                                templates := updateFirstMatch q.templates
                                  (fun t => t.key == key)
                                  (fun u => { u with
                                    values := u.values ++ [newSeq key lang] }),
                                responsesUpdatedAt := now }) := by
                        simp [applyOp, findTemplate, hQ, ht, hl]
                      rw [hdb] at hp'
                      exact responses_stamp_single db _ _ now (fun x => rfl) i p p' hp hp' hne
      | insT pid item =>
          cases hfp : findOneProject db pid with
          | none =>
              exfalso
              have hdb : applyOp true db now (.insT pid item) = db := by
                simp [applyOp, insertTemplate, hfp]
              rw [hdb] at hp'
              exact hne (congrArg Project.templates (get?_eq_of_noop hp hp'))
          | some pr =>
              cases hcol : pr.templates.any (fun t => t.key == item.key) with
              | true =>
                  exfalso
                  have hdb : applyOp true db now (.insT pid item) = db := by
                    simp [applyOp, insertTemplate, hfp, hcol]
                  rw [hdb] at hp'
                  exact hne (congrArg Project.templates (get?_eq_of_noop hp hp'))
              | false =>
                  have hdb : applyOp true db now (.insT pid item)
                      = updateFirstMatch db (fun q => q.id == pid)
                          (fun q : Project => { q with
                            templates := q.templates ++ [item],
                            responsesUpdatedAt := now }) := by
                    simp [applyOp, insertTemplate, hfp, hcol]
                  rw [hdb] at hp'
                  exact responses_stamp_single db _ _ now (fun x => rfl) i p p' hp hp' hne
      | impT pid arg =>
          cases hfp : findOneProject db pid with
          | none =>
              exfalso
              have hdb : applyOp true db now (.impT pid arg) = db := by
                simp [applyOp, importTemplates, hfp]
              rw [hdb] at hp'
              exact hne (congrArg Project.templates (get?_eq_of_noop hp hp'))
          | some pr =>
              have hdb : applyOp true db now (.impT pid arg)
                  = updateFirstMatch
                      (updateFirstMatch db (fun q => q.id == pid)
                        (fun q : Project => { q with
                          templates := q.templates.filter (fun t =>
                            !(((pr.templates.filter (fun u => (decodeTemplatesArg arg).any
                                (fun n => n.key == u.key))).map
                              (fun u => u.key)).contains t.key)) }))
                      (fun q => q.id == pid)
                      (fun q : Project => { q with
                        templates := q.templates ++ decodeTemplatesArg arg,
                        responsesUpdatedAt := now }) := by
                simp [applyOp, importTemplates, hfp]
              rw [hdb, updateFirstMatch_comp db (fun q => q.id == pid)
                (fun q : Project => { q with
                  templates := q.templates.filter (fun t =>
                    !(((pr.templates.filter (fun u => (decodeTemplatesArg arg).any
                        (fun n => n.key == u.key))).map
                      (fun u => u.key)).contains t.key)) })
                (fun q : Project => { q with
                  templates := q.templates ++ decodeTemplatesArg arg,
                  responsesUpdatedAt := now })
                (fun a => rfl)] at hp'
              exact responses_stamp_single db _ _ now (fun x => rfl) i p p' hp hp' hne
      | rmK pid arg =>
          have hdb : applyOp true db now (.rmK pid arg)
              = updateFirstMatch db (fun q => q.id == pid)
                  (fun q : Project => { q with
                    templates := q.templates.filter (fun t =>
                      !((decodeKeyArg arg).contains t.key)),
                    responsesUpdatedAt := now }) := by
            simp [applyOp, removeByKey]
          rw [hdb] at hp'
          exact responses_stamp_single db _ _ now (fun x => rfl) i p p' hp hp' hne

/-- Witness for C9: deleting `utter_greet` from a concrete project
stamps its `responsesUpdatedAt` with the call timestamp. -/
theorem mutation_bumps_responses_updated_at_witness :
    ([exProject] : DB).get? 0 = some exProject
      ∧ (applyOp true [exProject] 42 (.delT "p1" "utter_greet" "en")).get? 0
          = some { exProject with templates := [], responsesUpdatedAt := 42 }
      ∧ ({ exProject with templates := [], responsesUpdatedAt := 42 } : Project).responsesUpdatedAt
          = 42 :=
  ⟨rfl, by decide,
    mutation_bumps_responses_updated_at true [exProject] 42
      (.delT "p1" "utter_greet" "en") 0 exProject
      { exProject with templates := [], responsesUpdatedAt := 42 }
      rfl (by decide) (by decide)⟩

/-- C10: for any snapshot of currently defined role names and project
identifiers, `UserRoleSchema`'s allowed values for each role-name entry
are exactly the defined role names containing no `scope:action`-shaped
substring (word character, colon, word character), and its allowed
values for the `project` field are exactly the current project
identifiers plus the sentinel `'GLOBAL'`. -/
theorem user_role_schema_allowed_values (roleIds projectIds : List String)
    (r q : String) :
    (r ∈ roleAllowedValues roleIds ↔ r ∈ roleIds ∧ ¬ ScopeActionSubstring r)
      ∧ (q ∈ projectAllowedValues projectIds ↔ q ∈ projectIds ∨ q = "GLOBAL") := by
  constructor
  · rw [roleAllowedValues, List.mem_filter]
    constructor
    · intro hx
      obtain ⟨h1, h2⟩ := hx
      refine ⟨h1, fun hs => ?_⟩
      rw [← containsScopeAction_iff] at hs
      simp [hs] at h2
    · intro hx
      obtain ⟨h1, h2⟩ := hx
      refine ⟨h1, ?_⟩
      cases hc : containsScopeAction r with
      | false => rfl
      | true => exact absurd ((containsScopeAction_iff r).mp hc) h2
  · rw [projectAllowedValues, List.mem_append]
    simp

end Botfront
